import Mathlib

/-!
Verification of the geopetl PostGIS adapter (src/geopetl/postgis.py).

Strings are modelled as lists of characters (`Str`). Python values that
flow through the write path are modelled by `PyVal`. Database introspection
results (column metadata, declared geometry type, SRID) are external inputs
per the spec and are carried in `TableMeta`. SQL side effects (cursor
execute, connection commit) are modelled as an event list (`SqlEvent`).
-/

set_option linter.unusedVariables false
set_option maxRecDepth 40000

namespace Geopetl

/-- Lists of characters stand in for Python strings. -/
abbrev Str := List Char

/-- Converts a Lean string literal to the character-list representation. -/
def lc (s : String) : Str := s.data

/-- The single-quote character (ASCII 39), written by code point to keep
source text free of quote characters. -/
def sqc : Char := Char.ofNat 39

/-- The double-quote character. -/
def dqc : Char := Char.ofNat 34

/-- The pattern replaced in 3D geometry handling (postgis.py line 300). -/
def nan : Str := ['N', 'a', 'N']

/-- Python `', '.join(xs)` (used at lines 364, 400, 401, 475). -/
def joinComma (xs : List Str) : Str := List.intercalate (lc ", ") xs

/-- Substring test, embedding the Python `in` operator on strings
(lines 300, 305). -/
def hasSub (p : Str) : Str → Bool
  | [] => p.isEmpty
  | c :: cs => p.isPrefixOf (c :: cs) || hasSub p cs

/-- Decimal digit character for a value below ten. -/
def digitCh (d : Nat) : Char := Char.ofNat (48 + d)

/-- Fuel-driven decimal rendering; the fuel argument only bounds recursion
depth and any fuel of at least the digit count gives the same result. -/
def natToCharsAux : Nat → Nat → Str
  | 0, _ => []
  | fuel + 1, n =>
    if n < 10 then [digitCh n]
    else natToCharsAux fuel (n / 10) ++ [digitCh (n % 10)]

/-- Decimal rendering of a natural number, embedding Python `str` on a
nonnegative integer (used by string formatting of SRIDs at lines 296,
309 and of limits at line 485). -/
def natToChars (n : Nat) : Str := natToCharsAux (n + 1) n

/-- Decimal rendering of an integer, embedding Python `str` on `int`. -/
def intToChars (n : Int) : Str :=
  if n < 0 then '-' :: natToChars (-n).toNat else natToChars n.toNat

/-- Fuel-driven embedding of Python `s.replace('NaN', '0')` (line 301):
left-to-right scan replacing non-overlapping occurrences. Any fuel of at
least the length of the input gives the same result. -/
def replaceNaNAux : Nat → Str → Str
  | 0, s => s
  | _, [] => []
  | fuel + 1, c :: cs =>
    if nan.isPrefixOf (c :: cs) then '0' :: replaceNaNAux fuel (cs.drop 2)
    else c :: replaceNaNAux fuel cs

/-- Embedding of Python `geom.replace('NaN', '0')` at line 301. -/
def replaceNaN (s : Str) : Str := replaceNaNAux s.length s

/-- Embedding of the scalar Python values that reach `prepare_val`. -/
inductive PyVal where
  | str (s : Str)
  | int (n : Int)
  | bool (b : Bool)
  | none
deriving DecidableEq

/-- Python truthiness for the modelled values (`if val:` at lines 269,
277, 283). -/
def pyTruthy : PyVal → Bool
  | .str s => !s.isEmpty
  | .int n => n != 0
  | .bool b => b
  | .none => false

/-- Python `str()` on the modelled values (lines 270, 278, 284, 289). -/
def pyStr : PyVal → Str
  | .str s => s
  | .int n => intToChars n
  | .bool true => lc "True"
  | .bool false => lc "False"
  | .none => lc "None"

/-- Embedding of Python `val.replace(squote, two squotes)` at line 272:
a single-character pattern makes the scan a character-wise expansion. -/
def replaceQuote (s : Str) : Str :=
  (s.map (fun c => if c = sqc then [sqc, sqc] else [c])).flatten

/-- Embedding of `PostgisTable.prepare_val` (postgis.py lines 266-292).
The `TypeError` raise at line 291 becomes an `Except.error`. -/
def prepare_val (val : PyVal) (type_ : Str) : Except Str Str :=
  if type_ = lc "text" then
    .ok ([sqc] ++ (if pyTruthy val then replaceQuote (pyStr val) else []) ++ [sqc])
  else if type_ = lc "num" then
    .ok (if pyTruthy val then pyStr val else lc "NULL")
  else if type_ = lc "date" then
    .ok (if pyTruthy val then [sqc] ++ pyStr val ++ [sqc] else lc "NULL")
  else if type_ = lc "geometry" then
    .ok (pyStr val)
  else
    .error (lc "Unhandled type")

/-- The geometry constructor expression of postgis.py line 296. -/
def g1of (geom : Str) (srid : Nat) : Str :=
  lc "ST_GeomFromText('" ++ geom ++ lc "', " ++ natToChars srid ++ lc ")"

/-- Embedding of `PostgisTable._prepare_geom` (postgis.py lines 294-316).
The SRID arguments are natural numbers rendered by `natToChars`; the
Python truthiness guard `if transform_srid and srid != transform_srid`
makes a transform SRID of zero behave like an absent one. -/
def prepare_geom (geom : Str) (srid : Nat) (transform_srid : Option Nat)
    (multi_geom : Bool) : Str :=
  let g1 := g1of geom srid
  let g2 := if hasSub nan g1 then lc "ST_Force_2D(" ++ replaceNaN g1 ++ lc ")" else g1
  let g3 := if hasSub (lc "CURVE") g2 || (lc "CIRC").isPrefixOf g2 then
              lc "ST_CurveToLine(" ++ g2 ++ lc ")"
            else g2
  let g4 := match transform_srid with
    | Option.some t => if t != 0 && srid != t then
                lc "ST_Transform(" ++ g3 ++ lc ", " ++ natToChars t ++ lc ")"
              else g3
    | Option.none => g3
  if multi_geom then lc "ST_Multi(" ++ g4 ++ lc ")" else g4

/-- Table introspection facts, as produced by the external Database Handle
(spec section 3): `cols` is the metadata of lines 198-208 after the
`FIELD_TYPE_MAP` translation, `geomTypeDecl` is the `geom_type` property
(lines 247-256) and `sridDecl` is the `get_srid` result (lines 242-245). -/
structure TableMeta where
  schema : Str
  name : Str
  cols : List (Str × Str)
  geomTypeDecl : Str
  sridDecl : Nat
deriving DecidableEq

/-- One observable database action: a cursor `execute` of a statement, or
a connection `commit`. -/
inductive SqlEvent where
  | exec (stmt : Str)
  | commit
deriving DecidableEq

/-- Embedding of the `PostgisTable.geom_field` property (lines 226-233):
no geometry column gives `none`, more than one raises `LookupError`. -/
def geom_field (t : TableMeta) : Except Str (Option Str) :=
  match t.cols.filter (fun x => x.2 == lc "geometry") with
  | [] => .ok Option.none
  | [g] => .ok (Option.some g.1)
  | _ => .error (lc "Multiple geometry fields")

/-- Embedding of the `PostgisTable.fields` property (lines 222-224). -/
def fieldsOf (t : TableMeta) : List Str := t.cols.map (fun x => x.1)

/-- SQL identifier quoting. Modelled from the spec: the helper is
petl.io.db_utils._quote, an external collaborator of this repository; per
spec section 4.4 each field name is quoted per SQL identifier rules,
which for this dialect wraps in double quotes, doubling embedded ones. -/
def quoteId (s : Str) : Str :=
  [dqc] ++ (s.map (fun c => if c = dqc then [dqc, dqc] else [c])).flatten ++ [dqc]

/-- Embedding of the `PostgisTable.name_with_schema` property
(lines 210-220). -/
def name_with_schema (t : TableMeta) : Str :=
  if t.schema.isEmpty then t.name
  else joinDot ([t.schema, t.name].map quoteId)
where joinDot (xs : List Str) : Str := List.intercalate (lc ".") xs

/-- Embedding of `PostgisTable.wkt_getter` (lines 235-240); a zero
`to_srid` is falsy in Python and behaves like an absent one. -/
def wkt_getter (gf : Str) (to_srid : Option Nat) : Str :=
  let g := match to_srid with
    | Option.some t => if t != 0 then lc "ST_Transform(" ++ gf ++ lc ", " ++ natToChars t ++ lc ")" else gf
    | Option.none => gf
  lc "ST_AsText(" ++ g ++ lc ") AS " ++ gf

/-- Embedding of `PostgisQuery.stmt` (lines 460-489). The `geom_field`
property is consulted twice in the source (lines 465 and 469) with the
same result; the model computes it once. An empty where string and a
zero limit are falsy in Python and behave like absent ones. -/
def stmt (t : TableMeta) (fields : Option (List Str)) (return_geom : Bool)
    (to_srid : Option Nat) (where_ : Option Str) (limit : Option Nat) :
    Except Str Str := do
  let gf ← geom_field t
  let fs0 := match fields with
    | Option.some fs => fs
    | Option.none => (fieldsOf t).filter (fun x => !(Option.some x == gf))
  let fs1 := fs0.map quoteId
  let fs2 := match gf, return_geom with
    | Option.some g, true => fs1 ++ [wkt_getter g to_srid]
    | _, _ => fs1
  let base := lc "SELECT " ++ joinComma fs2 ++ lc " FROM " ++ name_with_schema t
  let withW := match where_ with
    | Option.some w => if !w.isEmpty then base ++ lc " WHERE " ++ w else base
    | Option.none => base
  let final := match limit with
    | Option.some n => if n != 0 then withW ++ lc " LIMIT " ++ natToChars n else withW
    | Option.none => withW
  return final

/-- Embedding of the batching loop of `PostgisTable.write`
(lines 377-418): rows are enumerated from zero, the accumulator is
flushed whenever the index is divisible by the buffer size (line 398),
and a final flush of whatever remains happens unconditionally after the
loop (lines 413-418). Returns the flushed batches in order. -/
def insBatches (B : Nat) : List (Nat × α) → List α → List (List α)
  | [], acc => [acc]
  | (i, r) :: rest, acc =>
    let acc2 := acc ++ [r]
    if i % B = 0 then acc2 :: insBatches B rest []
    else insBatches B rest acc2

/-- Record access `row[field]` for rows modelled as association lists;
a missing key yields the Python none value. -/
def rowGet (row : List (Str × PyVal)) (f : Str) : PyVal :=
  match row.find? (fun p => p.1 == f) with
  | Option.some p => p.2
  | Option.none => PyVal.none

/-- Default buffer size (postgis.py line 11). -/
def DEFAULT_WRITE_BUFFER_SIZE : Nat := 1000

/-- The INSERT statement prefix of postgis.py lines 364-365: note the
bare `self.name`, not `name_with_schema`. -/
def insertStmtPre (t : TableMeta) (fields : List Str) : Str :=
  lc "INSERT INTO " ++ t.name ++ lc " (" ++ joinComma fields ++ lc ") VALUES "

/-- The execute and commit events produced by the flushes of the write
loop (lines 396-418): statement text is the prefix followed by the
comma-joined parenthesised value tuples of the batch. -/
def insertEvents (stmtPre : Str) (B : Nat) (val_rows : List (List Str)) : List SqlEvent :=
  ((insBatches B val_rows.enum []).map (fun b =>
    [SqlEvent.exec (stmtPre ++ joinComma (b.map (fun vals => lc "(" ++ joinComma vals ++ lc ")"))),
     SqlEvent.commit])).flatten

/-- Embedding of `PostgisTable.write` (lines 318-418). Inputs: the table
facts, the header field list of the row stream (line 333), the rows as
association lists, the optional source SRID and the buffer size. Returns
the sequence of execute and commit events. The `iterations` value
computed at lines 367-372 is dead code in the source and is not
modelled. Raised exceptions (ValueError for an unknown field at line
361, IndexError for reading the first row of an empty geometry-bearing
stream at line 342) become errors. -/
def write (t : TableMeta) (fields : List Str) (rows : List (List (Str × PyVal)))
    (from_srid : Option Nat) (buffer_size : Nat) : Except Str (List SqlEvent) := do
  let gf ← geom_field t
  -- lines 339-353: geometry metadata and the MULTI promotion decision,
  -- taken from the first row only
  let multiAndSrid : Bool × Nat ←
    match gf with
    | Option.some g =>
      -- line 341: `srid = from_srid or self.get_srid()`
      let srid := match from_srid with
        | Option.some s => if s = 0 then t.sridDecl else s
        | Option.none => t.sridDecl
      match rows with
      | [] => .error (lc "IndexError")
      | r0 :: _ =>
        -- line 342: leading run of capital letters of the first row geometry
        let rowGeomType := (pyStr (rowGet r0 g)).takeWhile (fun c => c.isUpper)
        let multi := (lc "MULTI").isPrefixOf t.geomTypeDecl
                     && !((lc "MULTI").isPrefixOf rowGeomType)
        .ok (multi, srid)
    | Option.none => .ok (false, 0)
  -- lines 355-362: field name to type map, in header order
  let type_map ← fields.mapM (fun f =>
    match t.cols.find? (fun c => c.1 == f) with
    | Option.some c => .ok (f, c.2)
    | Option.none => .error (lc "Field does not exist"))
  -- lines 384-395: per-row value tuples
  let val_rows ← rows.mapM (fun row => type_map.mapM (fun ft =>
    if ft.2 == lc "geometry" then
      .ok (prepare_geom (pyStr (rowGet row (ft.1))) multiAndSrid.2 Option.none
            multiAndSrid.1)
    else
      prepare_val (rowGet row ft.1) ft.2))
  -- lines 364-365 and 396-418: statement prefix from the bare table name,
  -- then flush batches, each flush being one execute plus commit
  return insertEvents (insertStmtPre t fields) buffer_size val_rows

/-- Embedding of `PostgisTable.truncate` (lines 420-430). -/
def truncate (t : TableMeta) (cascade : Bool) : List SqlEvent :=
  let s := lc "TRUNCATE " ++ t.name ++ lc " RESTART IDENTITY"
  let s := if cascade then s ++ lc " CASCADE" else s
  [SqlEvent.exec s, SqlEvent.commit]

/-- Embedding of the module-level `topostgis` entry point (lines 43-65):
`dbTables` is the table list introspected from the database, `tableName`
the requested name and `t` the introspection facts for it. A missing
table raises NotImplementedError; an existing one is truncated and then
written with the default buffer size, the `buffer_size` argument being
ignored by the source. -/
def topostgis (dbTables : List Str) (tableName : Str) (t : TableMeta)
    (fields : List Str) (rows : List (List (Str × PyVal)))
    (from_srid : Option Nat) (buffer_size : Nat) : Except Str (List SqlEvent) :=
  if dbTables.contains tableName then
    (write t fields rows from_srid DEFAULT_WRITE_BUFFER_SIZE).map
      (fun evs => truncate t false ++ evs)
  else
    .error (lc "NotImplementedError")

/-- Embedding of the `Table.topostgis` method wrapper `_topostgis`
(lines 67-74), which forwards all arguments including `buffer_size`. -/
def topostgisMethod (dbTables : List Str) (tableName : Str) (t : TableMeta)
    (fields : List Str) (rows : List (List (Str × PyVal)))
    (from_srid : Option Nat) (buffer_size : Nat) : Except Str (List SqlEvent) :=
  topostgis dbTables tableName t fields rows from_srid buffer_size

/-- Number of executed statements in a write result. -/
def execCount (r : Except Str (List SqlEvent)) : Nat :=
  match r with
  | .ok evs => (evs.filter (fun e => match e with | .exec _ => true | .commit => false)).length
  | .error _ => 0

/-! Decomposition combinators used to state the fixed nesting order of the
geometry preparation pipeline (spec section 4.2): one conditional wrapper
per pipeline step, plus the condition values the code computes. -/

/-- Condition of the 3D handling step (line 300). -/
def nanCondOf (geom : Str) (srid : Nat) : Bool := hasSub nan (g1of geom srid)

/-- The innermost expression after optional NaN replacement (line 301). -/
def baseOf (geom : Str) (srid : Nat) : Str :=
  if nanCondOf geom srid then replaceNaN (g1of geom srid) else g1of geom srid

/-- Conditional force-to-2D wrapper (line 302). -/
def wrapF (b : Bool) (s : Str) : Str :=
  if b then lc "ST_Force_2D(" ++ s ++ lc ")" else s

/-- The pipeline value after the 3D handling step. -/
def g2of (geom : Str) (srid : Nat) : Str :=
  wrapF (nanCondOf geom srid) (baseOf geom srid)

/-- Condition of the curve conversion step (line 305). -/
def curveCondOf (geom : Str) (srid : Nat) : Bool :=
  hasSub (lc "CURVE") (g2of geom srid) || (lc "CIRC").isPrefixOf (g2of geom srid)

/-- Conditional curve linearization wrapper (line 306). -/
def wrapC (b : Bool) (s : Str) : Str :=
  if b then lc "ST_CurveToLine(" ++ s ++ lc ")" else s

/-- Condition of the reprojection step (line 308), with Python
truthiness of the transform SRID. -/
def trCond (ts : Option Nat) (srid : Nat) : Bool :=
  match ts with
  | Option.some t => t != 0 && srid != t
  | Option.none => false

/-- Conditional reprojection wrapper (line 309). -/
def wrapT (b : Bool) (t : Nat) (s : Str) : Str :=
  if b then lc "ST_Transform(" ++ s ++ lc ", " ++ natToChars t ++ lc ")" else s

/-- Conditional multi-geometry promotion wrapper (line 314). -/
def wrapM (b : Bool) (s : Str) : Str :=
  if b then lc "ST_Multi(" ++ s ++ lc ")" else s

/-- Select statement as described by the spec. Modelled from the spec
words, for comparison with the `stmt` embedding: section 4.4 prescribes
the explicit field subset if given, else all non-geometry fields, each
quoted; a geometry projection `ST_AsText(<possibly reprojected column>)
AS <column>` appended when a geometry column exists and geometry is
requested; section 6 gives the statement shape
`SELECT <cols> FROM <schema.table> [WHERE <predicate>] [LIMIT <n>]`.
An absent filter clause or limit is modelled as none, empty or zero,
matching the Python falsiness convention of the source. -/
def specSelect (t : TableMeta) (gf : Option Str) (fields : Option (List Str))
    (includeGeom : Bool) (targetSrid : Option Nat) (whereClause : Option Str)
    (limitN : Option Nat) : Str :=
  let cols := (match fields with
    | Option.some fs => fs
    | Option.none => (fieldsOf t).filter (fun x => !(Option.some x == gf))).map quoteId
  let cols := match gf, includeGeom with
    | Option.some g, true =>
        let e := match targetSrid with
          | Option.some n => if n != 0 then lc "ST_Transform(" ++ g ++ lc ", " ++ natToChars n ++ lc ")" else g
          | Option.none => g
        cols ++ [lc "ST_AsText(" ++ e ++ lc ") AS " ++ g]
    | _, _ => cols
  let s := lc "SELECT " ++ joinComma cols ++ lc " FROM " ++ name_with_schema t
  let s := match whereClause with
    | Option.some w => if !w.isEmpty then s ++ lc " WHERE " ++ w else s
    | Option.none => s
  match limitN with
  | Option.some n => if n != 0 then s ++ lc " LIMIT " ++ natToChars n else s
  | Option.none => s

/-- A table with a single numeric column, used as concrete input. -/
def tblNum : TableMeta := ⟨lc "public", lc "t", [(lc "a", lc "num")], [], 0⟩

/-- A table with numeric, text and geometry columns, used as concrete
input. -/
def tblGeo : TableMeta :=
  ⟨lc "public", lc "t",
   [(lc "id", lc "num"), (lc "name", lc "text"), (lc "geom", lc "geometry")],
   lc "MULTIPOLYGON", 4326⟩

/-! Supporting lemmas. -/

theorem digitCh_isDigit {d : Nat} (h : d < 10) : (digitCh d).isDigit = true := by
  interval_cases d <;> decide

theorem natToCharsAux_digits :
    ∀ fuel n c, c ∈ natToCharsAux fuel n → c.isDigit = true := by
  intro fuel
  induction fuel with
  | zero => intro n c hc; simp [natToCharsAux] at hc
  | succ f ih =>
    intro n c hc
    by_cases h : n < 10
    · simp [natToCharsAux, h] at hc
      exact hc ▸ digitCh_isDigit h
    · simp [natToCharsAux, h] at hc
      rcases hc with hc | hc
      · exact ih _ _ hc
      · exact hc ▸ digitCh_isDigit (Nat.mod_lt _ (by omega))

theorem natToChars_digits (n : Nat) : ∀ c ∈ natToChars n, c.isDigit = true :=
  fun _ hc => natToCharsAux_digits _ _ _ hc

theorem hasSub_iff (p s : Str) : hasSub p s = true ↔ p <:+: s := by
  induction s with
  | nil => simp [hasSub, List.isEmpty_iff, List.infix_nil]
  | cons c cs ih =>
    simp [hasSub, List.infix_cons_iff, List.isPrefixOf_iff_prefix, ih]

theorem infix_append_cases {p u v : Str} (h : p <:+: u ++ v) :
    p <:+: u ∨ p <:+: v ∨
    ∃ p1 p2, p = p1 ++ p2 ∧ p1 ≠ [] ∧ p2 ≠ [] ∧ p1 <:+ u ∧ p2 <+: v := by
  obtain ⟨s, t, hst⟩ := h
  rw [List.append_assoc] at hst
  rcases List.append_eq_append_iff.mp hst with ⟨a, ha, hpt⟩ | ⟨c, _, hvt⟩
  · rcases List.append_eq_append_iff.mp hpt with ⟨a2, haa, _⟩ | ⟨c2, hpc, hvc⟩
    · exact Or.inl ((show p <+: a from ⟨a2, haa.symm⟩).isInfix.trans
        (show a <:+ u from ⟨s, ha.symm⟩).isInfix)
    · by_cases ha0 : a = []
      · subst ha0
        simp only [List.nil_append] at hpc
        exact Or.inr (Or.inl (show p <+: v from hpc ▸ ⟨t, hvc.symm⟩).isInfix)
      · by_cases hc20 : c2 = []
        · subst hc20
          simp only [List.append_nil] at hpc
          exact Or.inl (hpc ▸ (show a <:+ u from ⟨s, ha.symm⟩).isInfix)
        · exact Or.inr (Or.inr ⟨a, c2, hpc, ha0, hc20, ⟨s, ha.symm⟩, ⟨t, hvc.symm⟩⟩)
  · exact Or.inr (Or.inl ⟨c, t, by rw [← List.append_assoc] at hvt; exact hvt.symm⟩)

theorem nan_splits {p1 p2 : Str} (h : p1 ++ p2 = nan) (h1 : p1 ≠ []) (h2 : p2 ≠ []) :
    (p1 = ['N'] ∧ p2 = ['a', 'N']) ∨ (p1 = ['N', 'a'] ∧ p2 = ['N']) := by
  cases p1 with
  | nil => exact absurd rfl h1
  | cons c p1 =>
    cases p1 with
    | nil =>
      simp only [nan, List.cons_append, List.nil_append, List.cons.injEq] at h
      exact Or.inl ⟨by rw [h.1], h.2⟩
    | cons d p1 =>
      cases p1 with
      | nil =>
        simp only [nan, List.cons_append, List.nil_append, List.cons.injEq] at h
        exact Or.inr ⟨by rw [h.1, h.2.1], h.2.2⟩
      | cons e p1 =>
        exfalso
        have hl := congrArg List.length h
        simp only [nan, List.length_append, List.length_cons, List.length_nil] at hl
        exact h2 (List.length_eq_zero.mp (by omega))

theorem noNaN_append {u v : Str} (hu : ¬ nan <:+: u) (hv : ¬ nan <:+: v)
    (h1 : ¬ (['N'] <:+ u ∧ ['a', 'N'] <+: v))
    (h2 : ¬ (['N', 'a'] <:+ u ∧ ['N'] <+: v)) : ¬ nan <:+: u ++ v := by
  intro h
  rcases infix_append_cases h with h | h | ⟨p1, p2, hp, hp1, hp2, hsu, hpv⟩
  · exact hu h
  · exact hv h
  · rcases nan_splits hp.symm hp1 hp2 with ⟨e1, e2⟩ | ⟨e1, e2⟩
    · exact h1 ⟨e1 ▸ hsu, e2 ▸ hpv⟩
    · exact h2 ⟨e1 ▸ hsu, e2 ▸ hpv⟩

theorem noNaN_affix {a v b : Str} (hv : ¬ nan <:+: v)
    (ha : ¬ nan <:+: a) (hb : ¬ nan <:+: b)
    (ha1 : ¬ ['N'] <:+ a) (ha2 : ¬ ['N', 'a'] <:+ a)
    (hb1 : ¬ ['a', 'N'] <+: b) (hb2 : ¬ ['N'] <+: b) :
    ¬ nan <:+: a ++ v ++ b := by
  have hvb : ¬ nan <:+: v ++ b :=
    noNaN_append hv hb (fun hc => hb1 hc.2) (fun hc => hb2 hc.2)
  have hfin : ¬ nan <:+: a ++ (v ++ b) :=
    noNaN_append ha hvb (fun hc => ha1 hc.1) (fun hc => ha2 hc.1)
  rw [List.append_assoc]
  exact hfin

theorem noNaN_digits {v : Str} (h : ∀ c ∈ v, c.isDigit = true) : ¬ nan <:+: v := by
  intro hin
  have hN : 'N' ∈ v := hin.subset (by simp [nan])
  exact absurd (h _ hN) (by decide)

theorem replaceNaNAux_nil (f : Nat) : replaceNaNAux f [] = [] := by
  cases f <;> rfl

theorem replaceNaNAux_free :
    ∀ f s, s.length ≤ f → ¬ nan <:+: replaceNaNAux f s := by
  intro f
  induction f with
  | zero =>
    intro s hs
    rw [List.length_eq_zero.mp (Nat.le_zero.mp hs)]
    rw [replaceNaNAux_nil]
    simp [List.infix_nil, nan]
  | succ f ih =>
    intro s hs hinf
    cases s with
    | nil =>
      rw [replaceNaNAux_nil] at hinf
      simp [List.infix_nil, nan] at hinf
    | cons c cs =>
      unfold replaceNaNAux at hinf
      by_cases hpre : nan.isPrefixOf (c :: cs) = true
      · rw [if_pos hpre] at hinf
        rcases List.infix_cons_iff.mp hinf with hpref | hinf2
        · rcases List.cons_prefix_cons.mp (show 'N' :: ['a', 'N'] <+: _ from hpref)
            with ⟨hc, -⟩
          exact absurd hc (by decide)
        · exact ih (cs.drop 2)
            (by simp only [List.length_drop]; simp at hs; omega) hinf2
      · rw [if_neg hpre] at hinf
        rcases List.infix_cons_iff.mp hinf with hpref | hinf2
        · have h1 : 'N' = c ∧ ['a', 'N'] <+: replaceNaNAux f cs := by
            simpa [nan, List.cons_prefix_cons] using hpref
          rcases h1 with ⟨hc, h2⟩
          cases cs with
          | nil =>
            rw [replaceNaNAux_nil] at h2
            simp [List.prefix_nil] at h2
          | cons d ds =>
            simp only [List.length_cons] at hs
            obtain ⟨f2, rfl⟩ : ∃ f2, f = f2 + 1 := ⟨f - 1, by omega⟩
            unfold replaceNaNAux at h2
            by_cases hpre2 : nan.isPrefixOf (d :: ds) = true
            · rw [if_pos hpre2] at h2
              exact absurd (List.cons_prefix_cons.mp h2).1 (by decide)
            · rw [if_neg hpre2] at h2
              have h3 : 'a' = d ∧ ['N'] <+: replaceNaNAux f2 ds :=
                by simpa [List.cons_prefix_cons] using h2
              rcases h3 with ⟨hd, h4⟩
              cases ds with
              | nil =>
                rw [replaceNaNAux_nil] at h4
                simp [List.prefix_nil] at h4
              | cons e es =>
                simp only [List.length_cons] at hs
                obtain ⟨f3, rfl⟩ : ∃ f3, f2 = f3 + 1 := ⟨f2 - 1, by omega⟩
                unfold replaceNaNAux at h4
                by_cases hpre3 : nan.isPrefixOf (e :: es) = true
                · rw [if_pos hpre3] at h4
                  exact absurd (List.cons_prefix_cons.mp h4).1 (by decide)
                · rw [if_neg hpre3] at h4
                  have he : 'N' = e := (List.cons_prefix_cons.mp h4).1
                  apply hpre
                  rw [← hc, ← hd, ← he]
                  simp [nan, List.isPrefixOf]
        · exact ih cs (by simpa using Nat.le_of_succ_le_succ hs) hinf2

theorem replaceNaN_free (s : Str) : ¬ nan <:+: replaceNaN s :=
  replaceNaNAux_free s.length s (Nat.le_refl _)

theorem replaceNaNAux_keep :
    ∀ (a : Str) (f : Nat) (s : Str), (∀ c ∈ a, c ≠ 'N') →
      a <+: replaceNaNAux f (a ++ s) := by
  intro a
  induction a with
  | nil => intro f s _; exact ⟨replaceNaNAux f s, by simp⟩
  | cons c a ih =>
    intro f s h
    cases f with
    | zero => exact List.prefix_append _ _
    | succ f =>
      have hc : c ≠ 'N' := h c (by simp)
      have hb : ('N' == c) = false := beq_eq_false_iff_ne.mpr (Ne.symm hc)
      have hpre : nan.isPrefixOf (c :: (a ++ s)) = false := by
        simp [nan, List.isPrefixOf, hb]
      rw [List.cons_append]
      unfold replaceNaNAux
      rw [if_neg (by simp [hpre])]
      exact List.cons_prefix_cons.mpr ⟨rfl, ih f s (fun x hx => h x (by simp [hx]))⟩

theorem replaceNaN_keep {a s : Str} (h : ∀ c ∈ a, c ≠ 'N') :
    a <+: replaceNaN (a ++ s) :=
  replaceNaNAux_keep a _ s h

/-- A list is a prefix of itself extended on the right by two pieces. -/
theorem IsPrefix.affix {a x y : Str} : a <+: (a ++ x) ++ y :=
  (List.prefix_append a x).trans (List.prefix_append (a ++ x) y)

/-- A list is an infix of itself wrapped on both sides. -/
theorem infix_affix {s l r : Str} : s <:+: l ++ s ++ r := ⟨l, r, rfl⟩

theorem infix_wrapC {x s : Str} (b : Bool) (h : x <:+: s) : x <:+: wrapC b s := by
  cases b
  · simpa [wrapC] using h
  · simpa [wrapC] using h.trans infix_affix

theorem infix_wrapT {x s : Str} (b : Bool) (t : Nat) (h : x <:+: s) :
    x <:+: wrapT b t s := by
  cases b
  · simpa [wrapT] using h
  · refine h.trans ⟨lc "ST_Transform(", lc ", " ++ natToChars t ++ lc ")", ?_⟩
    simp [wrapT, List.append_assoc]

theorem infix_wrapM {x s : Str} (b : Bool) (h : x <:+: s) : x <:+: wrapM b s := by
  cases b
  · simpa [wrapM] using h
  · simpa [wrapM] using h.trans infix_affix

theorem noNaN_wrapF {s : Str} (h : ¬ nan <:+: s) :
    ¬ nan <:+: lc "ST_Force_2D(" ++ s ++ lc ")" :=
  noNaN_affix h (by decide) (by decide) (by decide) (by decide) (by decide) (by decide)

theorem noNaN_wrapC {s : Str} (b : Bool) (h : ¬ nan <:+: s) : ¬ nan <:+: wrapC b s := by
  cases b
  · simpa [wrapC] using h
  · simpa [wrapC] using
      noNaN_affix h (by decide) (by decide) (by decide) (by decide) (by decide) (by decide)

theorem noNaN_transform_tail (t : Nat) : ¬ nan <:+: lc ", " ++ natToChars t ++ lc ")" :=
  noNaN_affix (noNaN_digits (natToChars_digits t))
    (by decide) (by decide) (by decide) (by decide) (by decide) (by decide)

theorem noNaN_wrapT {s : Str} (b : Bool) (t : Nat) (h : ¬ nan <:+: s) :
    ¬ nan <:+: wrapT b t s := by
  cases b
  · simpa [wrapT] using h
  · have hcomma : lc ", " = [',', ' '] := rfl
    have htail := noNaN_transform_tail t
    have hb1 : ¬ ['a', 'N'] <+: lc ", " ++ natToChars t ++ lc ")" := by
      intro hx
      rw [hcomma, List.append_assoc, List.cons_append, List.cons_append,
        List.nil_append] at hx
      exact absurd (List.cons_prefix_cons.mp hx).1 (by decide)
    have hb2 : ¬ ['N'] <+: lc ", " ++ natToChars t ++ lc ")" := by
      intro hx
      rw [hcomma, List.append_assoc, List.cons_append, List.cons_append,
        List.nil_append] at hx
      exact absurd (List.cons_prefix_cons.mp hx).1 (by decide)
    have hmain : ¬ nan <:+: lc "ST_Transform(" ++ s ++ (lc ", " ++ natToChars t ++ lc ")") :=
      noNaN_affix h (by decide) htail (by decide) (by decide) hb1 hb2
    intro hx
    apply hmain
    simpa [wrapT, List.append_assoc] using hx

theorem noNaN_wrapM {s : Str} (b : Bool) (h : ¬ nan <:+: s) : ¬ nan <:+: wrapM b s := by
  cases b
  · simpa [wrapM] using h
  · simpa [wrapM] using
      noNaN_affix h (by decide) (by decide) (by decide) (by decide) (by decide) (by decide)

/-- The geometry preparation pipeline factors as the conditional wrappers
applied in the fixed order of spec section 4.2. -/
theorem prepare_geom_eq (geom : Str) (srid : Nat) (ts : Option Nat) (m : Bool) :
    prepare_geom geom srid ts m =
      wrapM m (wrapT (trCond ts srid) (ts.getD 0)
        (wrapC (curveCondOf geom srid) (g2of geom srid))) := by
  cases hn : hasSub nan (g1of geom srid) <;> cases ts <;>
    simp [prepare_geom, wrapM, wrapT, wrapC, g2of, wrapF, curveCondOf, baseOf,
      nanCondOf, trCond, hn]

/-- The innermost expression of the pipeline starts with the geometry
constructor, whether or not NaN replacement happened. -/
theorem baseOf_head (geom : Str) (srid : Nat) :
    lc "ST_GeomFromText('" <+: baseOf geom srid := by
  have hg : g1of geom srid =
      lc "ST_GeomFromText('" ++ (geom ++ (lc "', " ++ (natToChars srid ++ lc ")"))) := by
    simp [g1of, List.append_assoc]
  unfold baseOf
  cases hn : nanCondOf geom srid
  · rw [if_neg (by simp), hg]
    exact List.prefix_append _ _
  · rw [if_pos rfl, hg]
    exact replaceNaN_keep (by decide)

theorem bind_ok {α β : Type} {x : Except Str α} {f : α → Except Str β} {b : β}
    (h : (x >>= f) = .ok b) : ∃ a, x = .ok a ∧ f a = .ok b := by
  cases x with
  | error e => simp [Bind.bind, Except.bind] at h
  | ok a => exact ⟨a, rfl, by simpa [Bind.bind, Except.bind] using h⟩

theorem map_ok {α β : Type} {x : Except Str α} {g : α → β} {b : β}
    (h : Except.map g x = .ok b) : ∃ a, x = .ok a ∧ g a = b := by
  cases x with
  | error e => simp [Except.map] at h
  | ok a => exact ⟨a, rfl, by simpa [Except.map] using h⟩

/-- Every executed statement of the write loop starts with the
INSERT statement prefix. -/
theorem exec_mem_insertEvents {pre : Str} {B : Nat} {vr : List (List Str)} {s : Str}
    (h : SqlEvent.exec s ∈ insertEvents pre B vr) : pre <+: s := by
  unfold insertEvents at h
  rw [List.mem_flatten] at h
  obtain ⟨l, hl, hmem⟩ := h
  rw [List.mem_map] at hl
  obtain ⟨bch, -, rfl⟩ := hl
  simp only [List.mem_cons, List.not_mem_nil, or_false] at hmem
  rcases hmem with h1 | h1
  · injection h1 with h2
    rw [h2]
    exact List.prefix_append _ _
  · exact absurd h1 (by simp)

/-- A successful write produces exactly the events of the batching loop
for some list of prepared value rows. -/
theorem write_ok_shape {t : TableMeta} {fields : List Str}
    {rows : List (List (Str × PyVal))} {from_srid : Option Nat} {B : Nat}
    {evts : List SqlEvent} (h : write t fields rows from_srid B = .ok evts) :
    ∃ vr, evts = insertEvents (insertStmtPre t fields) B vr := by
  unfold write at h
  obtain ⟨gf, hgf, h⟩ := bind_ok h
  cases gf with
  | none =>
    obtain ⟨ms, hms, h⟩ := bind_ok h
    obtain ⟨tm, htm, h⟩ := bind_ok h
    obtain ⟨vr, hvr, h⟩ := bind_ok h
    exact ⟨vr, by simpa [pure, Except.pure] using h.symm⟩
  | some g =>
    cases rows with
    | nil =>
      obtain ⟨ms, hms, h⟩ := bind_ok h
      simp at hms
    | cons r0 rest =>
      obtain ⟨ms, hms, h⟩ := bind_ok h
      obtain ⟨tm, htm, h⟩ := bind_ok h
      obtain ⟨vr, hvr, h⟩ := bind_ok h
      exact ⟨vr, by simpa [pure, Except.pure] using h.symm⟩

/-! Claim theorems. -/

/-- Claim C1, evaluated at the failing input of the claim itself: writing
2500 rows with batch size 1000 executes four INSERT statements, not three,
and the batch row counts are 1, 1000, 1000, 499 rather than
1000, 1000, 500, because the loop flushes at row index 0 and always issues
one final flush after the loop. -/
theorem claim_C1_batch_counts :
    execCount (write tblNum [lc "a"]
      (List.replicate 2500 [(lc "a", PyVal.int 1)]) Option.none 1000) = 4 ∧
    (insBatches 1000 (List.replicate 2500 (0 : Nat)).enum []).map List.length =
      [1] ++ List.replicate 2 1000 ++ [499] := by
  exact ⟨by decide, by decide⟩

/-- Claim C3, evaluated on the code: an empty row stream does not execute
zero INSERT statements; the unconditional final flush executes one INSERT
statement with an empty VALUES list, which is not valid SQL. -/
theorem claim_C3_empty_stream :
    write tblNum [lc "a"] [] Option.none 1000 =
      .ok [SqlEvent.exec (lc "INSERT INTO t (a) VALUES "), SqlEvent.commit] ∧
    execCount (write tblNum [lc "a"] [] Option.none 1000) = 1 :=
  ⟨rfl, rfl⟩

/-- Claim C4, evaluated at a CIRCULARSTRING input: the prefix test for
CIRC is applied to the already wrapped expression, which never starts
with CIRC, so no ST_CurveToLine wrapper is produced. -/
theorem claim_C4_circularstring :
    (lc "CIRC").isPrefixOf (lc "CIRCULARSTRING(0 0, 1 1, 2 0)") = true ∧
    ¬ lc "ST_CurveToLine" <:+:
        prepare_geom (lc "CIRCULARSTRING(0 0, 1 1, 2 0)") 4326 Option.none false :=
  ⟨by decide, by decide⟩

/-- Claim C5, counterexample: the INSERT statement generated for a table
in schema public contains the bare table name only; neither the
schema-qualified name nor the schema name occurs in the statement text. -/
theorem claim_C5_counterexample :
    write tblNum [lc "a"] [[(lc "a", PyVal.int 1)]] Option.none 1000 =
      .ok [SqlEvent.exec (lc "INSERT INTO t (a) VALUES (1)"), SqlEvent.commit,
           SqlEvent.exec (lc "INSERT INTO t (a) VALUES "), SqlEvent.commit] ∧
    ¬ name_with_schema tblNum <:+: lc "INSERT INTO t (a) VALUES (1)" ∧
    ¬ lc "public" <:+: lc "INSERT INTO t (a) VALUES (1)" :=
  ⟨rfl, by decide, by decide⟩

/-- Claim C5 as amended: every INSERT statement generated by the write
path starts with INSERT INTO followed by the bare, unqualified table name
and the parenthesised column list. -/
theorem claim_C5_bare_table_name {t : TableMeta} {fields : List Str}
    {rows : List (List (Str × PyVal))} {from_srid : Option Nat} {B : Nat}
    {evts : List SqlEvent} {s : Str}
    (h : write t fields rows from_srid B = .ok evts)
    (hm : SqlEvent.exec s ∈ evts) :
    lc "INSERT INTO " ++ t.name ++ lc " (" <+: s := by
  obtain ⟨vr, rfl⟩ := write_ok_shape h
  refine List.IsPrefix.trans ?_ (exec_mem_insertEvents hm)
  unfold insertStmtPre
  exact IsPrefix.affix

/-- Claim C5 amended, witness at a concrete write. -/
theorem claim_C5_bare_table_name_witness :
    lc "INSERT INTO " ++ tblNum.name ++ lc " (" <+: lc "INSERT INTO t (a) VALUES (1)" :=
  claim_C5_bare_table_name
    (rfl : write tblNum [lc "a"] [[(lc "a", PyVal.int 1)]] Option.none 1000 =
      .ok [SqlEvent.exec (lc "INSERT INTO t (a) VALUES (1)"), SqlEvent.commit,
           SqlEvent.exec (lc "INSERT INTO t (a) VALUES "), SqlEvent.commit])
    (by decide)

/-- Claim C10: the buffer size argument of the topostgis entry point and
of its Table-method wrapper has no effect; both always run the write with
the default buffer size. -/
theorem claim_C10_buffer_size_unused (dbTables : List Str) (tableName : Str)
    (t : TableMeta) (fields : List Str) (rows : List (List (Str × PyVal)))
    (from_srid : Option Nat) (b1 b2 : Nat) :
    topostgis dbTables tableName t fields rows from_srid b1 =
      topostgis dbTables tableName t fields rows from_srid b2 ∧
    topostgisMethod dbTables tableName t fields rows from_srid b1 =
      topostgis dbTables tableName t fields rows from_srid DEFAULT_WRITE_BUFFER_SIZE :=
  ⟨rfl, rfl⟩

/-- Claim C7: text coercion yields the two-quote empty literal for every
falsy value, yields the stringified value with doubled embedded quotes
wrapped in quotes for every truthy value, and never yields NULL. -/
theorem claim_C7_text_coercion (v : PyVal) :
    (pyTruthy v = false → prepare_val v (lc "text") = .ok [sqc, sqc]) ∧
    (pyTruthy v = true →
      prepare_val v (lc "text") = .ok ([sqc] ++ replaceQuote (pyStr v) ++ [sqc])) ∧
    prepare_val v (lc "text") ≠ .ok (lc "NULL") := by
  have hfalse : pyTruthy v = false → prepare_val v (lc "text") = .ok [sqc, sqc] := by
    intro h; simp [prepare_val, h]
  have htrue : pyTruthy v = true →
      prepare_val v (lc "text") = .ok ([sqc] ++ replaceQuote (pyStr v) ++ [sqc]) := by
    intro h; simp [prepare_val, h]
  refine ⟨hfalse, htrue, ?_⟩
  intro hco
  have hnull : lc "NULL" = 'N' :: lc "ULL" := rfl
  cases hb : pyTruthy v
  · rw [hfalse hb] at hco
    injection hco with h2
    exact absurd h2 (by decide)
  · rw [htrue hb] at hco
    injection hco with h2
    have hl : [sqc] ++ replaceQuote (pyStr v) ++ [sqc] =
        sqc :: (replaceQuote (pyStr v) ++ [sqc]) := by simp
    rw [hl, hnull] at h2
    injection h2 with h3 _
    exact absurd h3 (by decide)

/-- Claim C7, witness: zero is falsy and coerces to the empty literal,
and a name with an embedded quote has the quote doubled. -/
theorem claim_C7_witness :
    pyTruthy (PyVal.int 0) = false ∧
    prepare_val (PyVal.int 0) (lc "text") = .ok [sqc, sqc] ∧
    pyTruthy (PyVal.str (lc "O" ++ [sqc] ++ lc "Brien")) = true ∧
    prepare_val (PyVal.str (lc "O" ++ [sqc] ++ lc "Brien")) (lc "text") =
      .ok ([sqc] ++ replaceQuote (pyStr (PyVal.str (lc "O" ++ [sqc] ++ lc "Brien"))) ++ [sqc]) ∧
    replaceQuote (lc "O" ++ [sqc] ++ lc "Brien") = lc "O" ++ [sqc, sqc] ++ lc "Brien" :=
  ⟨by decide, (claim_C7_text_coercion _).1 (by decide), by decide,
   (claim_C7_text_coercion _).2.1 (by decide), by decide⟩

/-- Claim C2: when the target table exists, topostgis first executes and
commits a TRUNCATE <table> RESTART IDENTITY statement, and every
statement executed after it is an INSERT. -/
theorem claim_C2_truncate_first (dbTables : List Str) (tableName : Str)
    (t : TableMeta) (fields : List Str) (rows : List (List (Str × PyVal)))
    (from_srid : Option Nat) (B : Nat) (evts : List SqlEvent)
    (hex : dbTables.contains tableName = true)
    (h : topostgis dbTables tableName t fields rows from_srid B = .ok evts) :
    ∃ rest, evts =
        SqlEvent.exec (lc "TRUNCATE " ++ t.name ++ lc " RESTART IDENTITY") ::
          SqlEvent.commit :: rest ∧
      ∀ s, SqlEvent.exec s ∈ rest → lc "INSERT INTO " <+: s := by
  unfold topostgis at h
  rw [if_pos hex] at h
  obtain ⟨evs, hw, heq⟩ := map_ok h
  refine ⟨evs, ?_, ?_⟩
  · rw [← heq]
    simp [truncate]
  · intro s hs
    obtain ⟨vr, rfl⟩ := write_ok_shape hw
    refine List.IsPrefix.trans ?_ (exec_mem_insertEvents hs)
    unfold insertStmtPre
    exact (((List.prefix_append _ _).trans (List.prefix_append _ _)).trans
      (List.prefix_append _ _)).trans (List.prefix_append _ _)

/-- Claim C2, witness: a concrete run against an existing one-column
table truncates first and then only inserts. -/
theorem claim_C2_witness :
    ∃ rest, ([SqlEvent.exec (lc "TRUNCATE t RESTART IDENTITY"), SqlEvent.commit,
              SqlEvent.exec (lc "INSERT INTO t (a) VALUES (1)"), SqlEvent.commit,
              SqlEvent.exec (lc "INSERT INTO t (a) VALUES "), SqlEvent.commit] :
                List SqlEvent) =
        SqlEvent.exec (lc "TRUNCATE " ++ tblNum.name ++ lc " RESTART IDENTITY") ::
          SqlEvent.commit :: rest ∧
      ∀ s, SqlEvent.exec s ∈ rest → lc "INSERT INTO " <+: s :=
  claim_C2_truncate_first [lc "t"] (lc "t") tblNum [lc "a"]
    [[(lc "a", PyVal.int 1)]] Option.none 500
    [SqlEvent.exec (lc "TRUNCATE t RESTART IDENTITY"), SqlEvent.commit,
     SqlEvent.exec (lc "INSERT INTO t (a) VALUES (1)"), SqlEvent.commit,
     SqlEvent.exec (lc "INSERT INTO t (a) VALUES "), SqlEvent.commit]
    (by decide) rfl

/-- Claim C6: the geometry preparation output is the nesting of the five
operators in the fixed order of spec section 4.2, with the geometry
constructor innermost; whenever forceMulti holds the output starts with
the ST_Multi wrapper. -/
theorem claim_C6_pipeline_order (geom : Str) (srid : Nat) (ts : Option Nat) (m : Bool) :
    (∃ (f cv tr : Bool) (tv : Nat) (base : Str),
      prepare_geom geom srid ts m = wrapM m (wrapT tr tv (wrapC cv (wrapF f base))) ∧
      lc "ST_GeomFromText('" <+: base) ∧
    (m = true → lc "ST_Multi(" <+: prepare_geom geom srid ts m) := by
  constructor
  · exact ⟨nanCondOf geom srid, curveCondOf geom srid, trCond ts srid, ts.getD 0,
      baseOf geom srid, prepare_geom_eq geom srid ts m, baseOf_head geom srid⟩
  · intro hm
    rw [prepare_geom_eq, hm]
    simp only [wrapM, if_pos]
    exact IsPrefix.affix

/-- Claim C6, witness: a concrete multi-promoted, reprojected geometry. -/
theorem claim_C6_witness :
    (∃ (f cv tr : Bool) (tv : Nat) (base : Str),
      prepare_geom (lc "POINT(1 2)") 4326 (Option.some 2272) true =
        wrapM true (wrapT tr tv (wrapC cv (wrapF f base))) ∧
      lc "ST_GeomFromText('" <+: base) ∧
    lc "ST_Multi(" <+: prepare_geom (lc "POINT(1 2)") 4326 (Option.some 2272) true :=
  ⟨(claim_C6_pipeline_order (lc "POINT(1 2)") 4326 (Option.some 2272) true).1,
   (claim_C6_pipeline_order (lc "POINT(1 2)") 4326 (Option.some 2272) true).2 rfl⟩

/-- Claim C9: for every WKT containing the NaN token, the prepared
geometry contains an ST_Force_2D wrapper and contains no NaN token. -/
theorem claim_C9_nan (geom : Str) (srid : Nat) (ts : Option Nat) (m : Bool)
    (h : nan <:+: geom) :
    lc "ST_Force_2D(" <:+: prepare_geom geom srid ts m ∧
    ¬ nan <:+: prepare_geom geom srid ts m := by
  have hshape : g1of geom srid =
      lc "ST_GeomFromText('" ++ (geom ++ (lc "', " ++ (natToChars srid ++ lc ")"))) := by
    simp [g1of, List.append_assoc]
  have hg1 : nan <:+: g1of geom srid := by
    refine h.trans ?_
    rw [hshape]
    exact ⟨lc "ST_GeomFromText('", lc "', " ++ (natToChars srid ++ lc ")"),
      by simp [List.append_assoc]⟩
  have hn : nanCondOf geom srid = true := by
    unfold nanCondOf
    exact (hasSub_iff _ _).mpr hg1
  have hg2 : g2of geom srid =
      lc "ST_Force_2D(" ++ replaceNaN (g1of geom srid) ++ lc ")" := by
    unfold g2of wrapF baseOf
    simp [hn]
  rw [prepare_geom_eq]
  constructor
  · apply infix_wrapM
    apply infix_wrapT
    apply infix_wrapC
    rw [hg2]
    exact IsPrefix.affix.isInfix
  · apply noNaN_wrapM
    apply noNaN_wrapT
    apply noNaN_wrapC
    rw [hg2]
    exact noNaN_wrapF (replaceNaN_free _)

/-- Claim C9, witness: a concrete 3D point with a NaN coordinate. -/
theorem claim_C9_witness :
    nan <:+: lc "POINT(1 2 NaN)" ∧
    lc "ST_Force_2D(" <:+: prepare_geom (lc "POINT(1 2 NaN)") 4326 Option.none false ∧
    ¬ nan <:+: prepare_geom (lc "POINT(1 2 NaN)") 4326 Option.none false :=
  ⟨by decide,
   (claim_C9_nan (lc "POINT(1 2 NaN)") 4326 Option.none false (by decide)).1,
   (claim_C9_nan (lc "POINT(1 2 NaN)") 4326 Option.none false (by decide)).2⟩

/-- Claim C8: the generated SELECT agrees with the spec shape; omitting
the field list selects exactly the non-geometry columns plus, when a
geometry column exists and is requested, one geometry projection; an
absent limit adds no LIMIT clause; a where predicate appends exactly
WHERE followed by the predicate text. -/
theorem claim_C8_query_builder (t : TableMeta) (gf : Option Str)
    (fields : Option (List Str)) (rg : Bool) (ts : Option Nat)
    (w : Option Str) (l : Option Nat)
    (hgf : geom_field t = .ok gf) :
    stmt t fields rg ts w l = .ok (specSelect t gf fields rg ts w l) ∧
    stmt t fields rg ts (Option.some (lc "x > 1")) Option.none =
      (stmt t fields rg ts Option.none Option.none).map
        (fun s => s ++ lc " WHERE x > 1") := by
  have happ : lc " WHERE " ++ lc "x > 1" = lc " WHERE x > 1" := rfl
  constructor
  · unfold stmt specSelect wkt_getter
    rw [hgf]
    simp [Bind.bind, Except.bind, pure, Except.pure]
  · unfold stmt
    rw [hgf]
    have hne : (lc "x > 1").isEmpty = false := rfl
    simp [Bind.bind, Except.bind, pure, Except.pure, Except.map, hne,
      List.append_assoc, happ]

/-- Claim C8, witness: the three-column table with a geometry column,
defaulted fields, geometry requested, a where clause and no limit. -/
theorem claim_C8_witness :
    geom_field tblGeo = .ok (Option.some (lc "geom")) ∧
    stmt tblGeo Option.none true Option.none (Option.some (lc "x > 1")) Option.none =
      .ok (specSelect tblGeo (Option.some (lc "geom")) Option.none true Option.none
        (Option.some (lc "x > 1")) Option.none) :=
  ⟨rfl, (claim_C8_query_builder tblGeo (Option.some (lc "geom")) Option.none true
    Option.none (Option.some (lc "x > 1")) Option.none rfl).1⟩

end Geopetl
